import Mathlib

/-!
Shallow embedding of `expyfun/_input_controllers.py`: the `Keyboard` and
`Mouse` monitors (event retrieval, timing correction, force-quit checking,
and the bounded-wait protocol).

Modelling conventions:
* device/master times are rationals (`ℚ`); `max_wait` is `Option ℚ` with
  `none` standing for the Python `float('inf')`;
* the raw event buffers are explicit list fields of the monitor states;
* clock reads (`self.master_clock()`) and buffer contents at each poll of a
  busy-wait loop are supplied by the environment as functions `ℕ → ℚ` and
  `ℕ → List _` indexed by the poll number; the loops recurse on an explicit
  fuel argument;
* `raise` sites become an `Err` value; the calls to the recorder
  collaborator (`log_presses` / `log_clicks`) become an explicit `log`
  output field; the side-effect sequence of `_init_wait_press` /
  `_init_wait_click` (sleep, force-quit check, buffer clear) is additionally
  recorded as a trace of `Action`s.
-/

namespace Expyfun

/-- The distinct raise sites of the Python code: the two `ValueError`s of
`_init_wait_press` / `_init_wait_click`, the `ValueError` of
`get_presses` / `get_clicks` (spec: `StateError`), the `TypeError` of
`check_force_quit`, and the `RuntimeError` for a quit key (spec:
`ForceQuit`).  `indexError` models Python indexing `[0]` of an empty list
(never actually reached). -/
inductive Err where
  | configErrorInfinite
  | configErrorMinMax
  | stateError
  | typeError
  | forceQuit
  | indexError
deriving DecidableEq, Repr

/-- A raw keyboard event: `(key, device-local time)` as appended by
`_on_pyglet_keypress`. -/
abbrev KeyEvent := String × ℚ

/-- A raw mouse event as appended by `_on_pyglet_mouse_click`:
`(button, x, y, device-local time)`. -/
structure MouseEvent where
  button : String
  x : ℤ
  y : ℤ
  t : ℚ
deriving DecidableEq, Repr

/-- The `max_wait` argument: `none` models `float('inf')`. -/
abbrev Wait := Option ℚ

/-- Models `np.isinf(max_wait)`. -/
def Wait.isInf : Wait → Bool
  | none => true
  | some _ => false

/-- Models `d < max_wait` (anything is below infinity). -/
def waitLt (d : ℚ) : Wait → Bool
  | none => true
  | some m => decide (d < m)

/-- Models `d <= max_wait` (anything is below infinity). -/
def waitLe (d : ℚ) : Wait → Bool
  | none => true
  | some m => decide (d ≤ m)

/-- The state of the `Keyboard` monitor that the modelled operations read
and write: the immutable force-quit key set, the per-session time
correction, the optional `listen_start` anchor, and the raw event buffer. -/
structure Keyboard where
  force_quit_keys : List String
  time_correction : ℚ
  listen_start : Option ℚ
  keyboard_buffer : List KeyEvent
deriving DecidableEq, Repr

/-- The state of the `Mouse` monitor (its force-quit checking is delegated
to a `Keyboard`, so it has no key set of its own). -/
structure Mouse where
  time_correction : ℚ
  listen_start : Option ℚ
  mouse_buffer : List MouseEvent
deriving DecidableEq, Repr

/-- The `keys` argument of `check_force_quit`: Python `None`, a single
string, a list of strings, or a value of any other type. -/
inductive KeysArg where
  | noKeys
  | str (s : String)
  | list (ks : List String)
  | other
deriving DecidableEq, Repr

/-- An element of the Python list returned by `_correct_presses`: a
`(key, time)` tuple when `timestamp` was requested, a bare key otherwise. -/
inductive PressEntry where
  | timed (k : String) (t : ℚ)
  | bare (k : String)
deriving DecidableEq, Repr

/-- An element of the Python list returned by `_correct_clicks`. -/
inductive ClickEntry where
  | timed (b : String) (x y : ℤ) (t : ℚ)
  | bare (b : String) (x y : ℤ)
deriving DecidableEq, Repr

/-- The joint outcome of a keyboard retrieval: what was handed to the
`log_presses` recorder (`none` when it was not called) and the returned
value or raised error. -/
structure PressOut where
  log : Option (List KeyEvent)
  result : Except Err (List PressEntry)
deriving Repr

/-- The joint outcome of a mouse retrieval: what was handed to the
`log_clicks` recorder (`none` when it was not called) and the returned
value or raised error. -/
structure ClickOut where
  log : Option (List MouseEvent)
  result : Except Err (List ClickEntry)
deriving Repr

/-- Model of `Keyboard._retrieve_keyboard_events`: a `None` filter accepts
the whole buffer; a list filter is extended with the force-quit keys before
matching. -/
def retrieve_keyboard_events (kb : Keyboard) (live_keys : Option (List String)) :
    List KeyEvent :=
  match live_keys with
  | none => kb.keyboard_buffer
  | some ks =>
      kb.keyboard_buffer.filter (fun e => decide (e.1 ∈ ks ++ kb.force_quit_keys))

/-- Model of `Mouse._retrieve_mouse_events`: a `None` filter accepts the
whole buffer; a list filter is matched as given (no augmentation). -/
def retrieve_mouse_events (m : Mouse) (live_buttons : Option (List String)) :
    List MouseEvent :=
  match live_buttons with
  | none => m.mouse_buffer
  | some bs => m.mouse_buffer.filter (fun e => decide (e.button ∈ bs))

/-- Model of `Keyboard.check_force_quit`: with `keys=None` it pulls the
buffered events matching the force-quit set (`_retrieve_keyboard_events([])`);
a string is wrapped into a one-element list; a list is intersected with the
force-quit set; any other type raises `TypeError`.  A non-empty remaining
collection raises the quit error. -/
def check_force_quit (kb : Keyboard) (keys : KeysArg) : Except Err Unit :=
  match keys with
  | .noKeys =>
      if (retrieve_keyboard_events kb (some [])).isEmpty then .ok ()
      else .error .forceQuit
  | .str s =>
      if ([s].filter (fun k => decide (k ∈ kb.force_quit_keys))).isEmpty then .ok ()
      else .error .forceQuit
  | .list ks =>
      if (ks.filter (fun k => decide (k ∈ kb.force_quit_keys))).isEmpty then .ok ()
      else .error .forceQuit
  | .other => .error .typeError

/-- Model of `Keyboard._correct_presses`: on a non-empty list, add the time
correction, log the corrected tuples, check the keys against the force-quit
set, then either subtract `relative_to` (timestamp requested) or keep bare
keys.  An empty list is returned unchanged with no logging or checking. -/
def correct_presses (kb : Keyboard) (pressed : List KeyEvent) (timestamp : Bool)
    (relative_to : Option ℚ) : PressOut :=
  if pressed.isEmpty then { log := none, result := .ok [] }
  else
    let corrected := pressed.map (fun e => (e.1, e.2 + kb.time_correction))
    let keys := corrected.map (fun e => e.1)
    match check_force_quit kb (.list keys) with
    | .error er => { log := some corrected, result := .error er }
    | .ok _ =>
        if timestamp then
          match relative_to with
          | some r =>
              { log := some corrected,
                result := .ok (corrected.map (fun e => .timed e.1 (e.2 - r))) }
          | none => { log := some corrected, result := .error .typeError }
        else
          { log := some corrected, result := .ok (keys.map .bare) }

/-- Model of `Mouse._correct_clicks`: on a non-empty list, add the time
correction, log the corrected tuples, run the delegated keyboard force-quit
check, then either subtract `relative_to` or keep bare `(button, x, y)`
triples. -/
def correct_clicks (kb : Keyboard) (m : Mouse) (clicked : List MouseEvent)
    (timestamp : Bool) (relative_to : Option ℚ) : ClickOut :=
  if clicked.isEmpty then { log := none, result := .ok [] }
  else
    let corrected := clicked.map (fun e => { e with t := e.t + m.time_correction })
    match check_force_quit kb .noKeys with
    | .error er => { log := some corrected, result := .error er }
    | .ok _ =>
        if timestamp then
          match relative_to with
          | some r =>
              { log := some corrected,
                result := .ok (corrected.map (fun e => .timed e.button e.x e.y (e.t - r))) }
          | none => { log := some corrected, result := .error .typeError }
        else
          { log := some corrected,
            result := .ok (corrected.map (fun e => .bare e.button e.x e.y)) }

/-- Model of `Keyboard.get_presses`: default `relative_to` to `listen_start`
when a timestamp is requested (raising when no session ever started), then
retrieve and correct. -/
def get_presses (kb : Keyboard) (live_keys : Option (List String))
    (timestamp : Bool) (relative_to : Option ℚ) : PressOut :=
  if timestamp && relative_to.isNone then
    match kb.listen_start with
    | none => { log := none, result := .error .stateError }
    | some ls =>
        correct_presses kb (retrieve_keyboard_events kb live_keys) timestamp (some ls)
  else
    correct_presses kb (retrieve_keyboard_events kb live_keys) timestamp relative_to

/-- Model of `Mouse.get_clicks` (the force-quit check inside the correction
step reads the keyboard state `kb`). -/
def get_clicks (kb : Keyboard) (m : Mouse) (live_buttons : Option (List String))
    (timestamp : Bool) (relative_to : Option ℚ) : ClickOut :=
  if timestamp && relative_to.isNone then
    match m.listen_start with
    | none => { log := none, result := .error .stateError }
    | some ls =>
        correct_clicks kb m (retrieve_mouse_events m live_buttons) timestamp (some ls)
  else
    correct_clicks kb m (retrieve_mouse_events m live_buttons) timestamp relative_to

/-- Model of `Keyboard.listen_presses`: refresh the time correction, anchor
`listen_start` at the current master-clock time, clear the buffer. -/
def listen_presses (kb : Keyboard) (now new_corr : ℚ) : Keyboard :=
  { kb with time_correction := new_corr, listen_start := some now,
            keyboard_buffer := [] }

/-- Model of `Mouse.listen_clicks`. -/
def listen_clicks (m : Mouse) (now new_corr : ℚ) : Mouse :=
  { m with time_correction := new_corr, listen_start := some now,
           mouse_buffer := [] }

/-- One recorded side effect of `_init_wait_press` / `_init_wait_click`:
the `wait_secs(min_wait)` sleep, the `check_force_quit()` call, the
`_clear_events()` call. -/
inductive Action where
  | waitSecs (d : ℚ)
  | checkQuit
  | clearEvents
deriving DecidableEq, Repr

/-- Outcome of `Keyboard._init_wait_press`: the returned
`(relative_to, start_time)` pair or the raised error, the keyboard state
after the call, and the trace of side effects performed. -/
structure InitPressOut where
  result : Except Err (Option ℚ × ℚ)
  kb : Keyboard
  trace : List Action
deriving Repr

/-- Outcome of `Mouse._init_wait_click`: as `InitPressOut`, but the cleared
buffer is the mouse one while the force-quit check reads the keyboard. -/
structure InitClickOut where
  result : Except Err (Option ℚ × ℚ)
  kb : Keyboard
  m : Mouse
  trace : List Action
deriving Repr

/-- Model of `Keyboard._init_wait_press`.  `start_time` is the
environment-supplied master-clock reading; `settle_arrivals` are the key
events pumped into the buffer while `wait_secs(min_wait)` sleeps.  Argument
validation happens before any side effect; on success the sequence is
sleep, force-quit check (against the grown buffer), buffer clear. -/
def init_wait_press (kb : Keyboard) (max_wait : Wait) (min_wait : ℚ)
    (live_keys : Option (List String)) (timestamp : Bool)
    (relative_to : Option ℚ) (start_time : ℚ)
    (settle_arrivals : List KeyEvent) : InitPressOut :=
  if max_wait.isInf && decide (live_keys = some []) then
    { result := .error .configErrorInfinite, kb := kb, trace := [] }
  else if !(waitLe min_wait max_wait) then
    { result := .error .configErrorMinMax, kb := kb, trace := [] }
  else
    let relative_to := if timestamp && relative_to.isNone then some start_time
      else relative_to
    let kb := { kb with keyboard_buffer := kb.keyboard_buffer ++ settle_arrivals }
    match check_force_quit kb .noKeys with
    | .error er =>
        { result := .error er, kb := kb,
          trace := [.waitSecs min_wait, .checkQuit] }
    | .ok _ =>
        { result := .ok (relative_to, start_time),
          kb := { kb with keyboard_buffer := [] },
          trace := [.waitSecs min_wait, .checkQuit, .clearEvents] }

/-- Model of `Mouse._init_wait_click`.  The force-quit check is the
delegated keyboard `check_force_quit()`; `_clear_events` clears only the
mouse buffer. -/
def init_wait_click (kb : Keyboard) (m : Mouse) (max_wait : Wait) (min_wait : ℚ)
    (live_buttons : Option (List String)) (timestamp : Bool)
    (relative_to : Option ℚ) (start_time : ℚ)
    (settle_keys : List KeyEvent) (settle_clicks : List MouseEvent) :
    InitClickOut :=
  if max_wait.isInf && decide (live_buttons = some []) then
    { result := .error .configErrorInfinite, kb := kb, m := m, trace := [] }
  else if !(waitLe min_wait max_wait) then
    { result := .error .configErrorMinMax, kb := kb, m := m, trace := [] }
  else
    let relative_to := if timestamp && relative_to.isNone then some start_time
      else relative_to
    let kb := { kb with keyboard_buffer := kb.keyboard_buffer ++ settle_keys }
    let m := { m with mouse_buffer := m.mouse_buffer ++ settle_clicks }
    match check_force_quit kb .noKeys with
    | .error er =>
        { result := .error er, kb := kb, m := m,
          trace := [.waitSecs min_wait, .checkQuit] }
    | .ok _ =>
        { result := .ok (relative_to, start_time), kb := kb,
          m := { m with mouse_buffer := [] },
          trace := [.waitSecs min_wait, .checkQuit, .clearEvents] }

/-- The busy-wait loop of `wait_one_press`:
`while not len(pressed) and clock() - start_time < max_wait: pressed = retrieve(live_keys)`.
`clock_at i` is the master-clock reading of the i-th condition check and
`buf_at i` the keyboard buffer at the i-th retrieval; `fuel` bounds the
number of iterations (theorems assume it suffices). -/
def wait_press_loop (kb : Keyboard) (live_keys : Option (List String))
    (start_time : ℚ) (max_wait : Wait) (clock_at : ℕ → ℚ)
    (buf_at : ℕ → List KeyEvent) :
    ℕ → ℕ → List KeyEvent → List KeyEvent
  | 0, _, pressed => pressed
  | fuel + 1, i, pressed =>
      if pressed.isEmpty && waitLt (clock_at i - start_time) max_wait then
        wait_press_loop kb live_keys start_time max_wait clock_at buf_at fuel
          (i + 1)
          (retrieve_keyboard_events { kb with keyboard_buffer := buf_at i }
            live_keys)
      else pressed

/-- The busy-wait loop of `wait_for_presses`:
`while clock() - start_time < max_wait: pressed = retrieve(live_keys)`. -/
def wait_many_press_loop (kb : Keyboard) (live_keys : Option (List String))
    (start_time : ℚ) (max_wait : Wait) (clock_at : ℕ → ℚ)
    (buf_at : ℕ → List KeyEvent) :
    ℕ → ℕ → List KeyEvent → List KeyEvent
  | 0, _, pressed => pressed
  | fuel + 1, i, pressed =>
      if waitLt (clock_at i - start_time) max_wait then
        wait_many_press_loop kb live_keys start_time max_wait clock_at buf_at
          fuel (i + 1)
          (retrieve_keyboard_events { kb with keyboard_buffer := buf_at i }
            live_keys)
      else pressed

/-- The busy-wait loop of `wait_one_click`. -/
def wait_click_loop (m : Mouse) (live_buttons : Option (List String))
    (start_time : ℚ) (max_wait : Wait) (clock_at : ℕ → ℚ)
    (buf_at : ℕ → List MouseEvent) :
    ℕ → ℕ → List MouseEvent → List MouseEvent
  | 0, _, clicked => clicked
  | fuel + 1, i, clicked =>
      if clicked.isEmpty && waitLt (clock_at i - start_time) max_wait then
        wait_click_loop m live_buttons start_time max_wait clock_at buf_at fuel
          (i + 1)
          (retrieve_mouse_events { m with mouse_buffer := buf_at i }
            live_buttons)
      else clicked

/-- The busy-wait loop of `wait_for_clicks`. -/
def wait_many_click_loop (m : Mouse) (live_buttons : Option (List String))
    (start_time : ℚ) (max_wait : Wait) (clock_at : ℕ → ℚ)
    (buf_at : ℕ → List MouseEvent) :
    ℕ → ℕ → List MouseEvent → List MouseEvent
  | 0, _, clicked => clicked
  | fuel + 1, i, clicked =>
      if waitLt (clock_at i - start_time) max_wait then
        wait_many_click_loop m live_buttons start_time max_wait clock_at buf_at
          fuel (i + 1)
          (retrieve_mouse_events { m with mouse_buffer := buf_at i }
            live_buttons)
      else clicked

/-- The value `wait_one_press` hands back: a `(key, time)` tuple, the
`(None, None)` pair, a bare key, or `None`. -/
inductive OnePressResult where
  | timed (k : String) (t : ℚ)
  | timedNone
  | bare (k : String)
  | bareNone
deriving DecidableEq, Repr

/-- The value `wait_one_click` hands back. -/
inductive OneClickResult where
  | timed (b : String) (x y : ℤ) (t : ℚ)
  | timedNone
  | bare (b : String) (x y : ℤ)
  | bareNone
deriving DecidableEq, Repr

/-- Model of `Keyboard.wait_one_press`: init (validation, settle, force-quit
check, clear), then the first-event loop, then correction of the retrieved
list and selection of its first element, with the `(None, None)` / `None`
fallbacks on timeout. -/
def wait_one_press (kb : Keyboard) (max_wait : Wait) (min_wait : ℚ)
    (live_keys : Option (List String)) (timestamp : Bool)
    (relative_to : Option ℚ) (start_time : ℚ)
    (settle_arrivals : List KeyEvent) (clock_at : ℕ → ℚ)
    (buf_at : ℕ → List KeyEvent) (fuel : ℕ) : Except Err OnePressResult :=
  let init := init_wait_press kb max_wait min_wait live_keys timestamp
    relative_to start_time settle_arrivals
  match init.result with
  | .error er => .error er
  | .ok (rel, st) =>
      let pressed := wait_press_loop kb live_keys st max_wait clock_at
        buf_at fuel 0 []
      if pressed.isEmpty then
        if timestamp then .ok .timedNone else .ok .bareNone
      else
        match (correct_presses kb pressed timestamp rel).result with
        | .error er => .error er
        | .ok [] => .error .indexError
        | .ok (.timed k t :: _) => .ok (.timed k t)
        | .ok (.bare k :: _) => .ok (.bare k)

/-- Model of `Keyboard.wait_for_presses`: init, then the unconditional
timeout loop, then correction of the last retrieved list. -/
def wait_for_presses (kb : Keyboard) (max_wait : Wait) (min_wait : ℚ)
    (live_keys : Option (List String)) (timestamp : Bool)
    (relative_to : Option ℚ) (start_time : ℚ)
    (settle_arrivals : List KeyEvent) (clock_at : ℕ → ℚ)
    (buf_at : ℕ → List KeyEvent) (fuel : ℕ) : PressOut :=
  let init := init_wait_press kb max_wait min_wait live_keys timestamp
    relative_to start_time settle_arrivals
  match init.result with
  | .error er => { log := none, result := .error er }
  | .ok (rel, st) =>
      let pressed := wait_many_press_loop kb live_keys st max_wait
        clock_at buf_at fuel 0 []
      correct_presses kb pressed timestamp rel

/-- Model of `Mouse.wait_one_click`.  `kb_buf_end` is the keyboard buffer
contents at the moment of the delegated force-quit check inside the final
correction step. -/
def wait_one_click (kb : Keyboard) (m : Mouse) (max_wait : Wait)
    (min_wait : ℚ) (live_buttons : Option (List String)) (timestamp : Bool)
    (relative_to : Option ℚ) (start_time : ℚ)
    (settle_keys : List KeyEvent) (settle_clicks : List MouseEvent)
    (clock_at : ℕ → ℚ) (buf_at : ℕ → List MouseEvent)
    (kb_buf_end : List KeyEvent) (fuel : ℕ) : Except Err OneClickResult :=
  let init := init_wait_click kb m max_wait min_wait live_buttons timestamp
    relative_to start_time settle_keys settle_clicks
  match init.result with
  | .error er => .error er
  | .ok (rel, st) =>
      let clicked := wait_click_loop m live_buttons st max_wait clock_at
        buf_at fuel 0 []
      if clicked.isEmpty then
        if timestamp then .ok .timedNone else .ok .bareNone
      else
        match (correct_clicks { kb with keyboard_buffer := kb_buf_end }
            m clicked timestamp rel).result with
        | .error er => .error er
        | .ok [] => .error .indexError
        | .ok (.timed b x y t :: _) => .ok (.timed b x y t)
        | .ok (.bare b x y :: _) => .ok (.bare b x y)

/-- Model of `Mouse.wait_for_clicks`. -/
def wait_for_clicks (kb : Keyboard) (m : Mouse) (max_wait : Wait)
    (min_wait : ℚ) (live_buttons : Option (List String)) (timestamp : Bool)
    (relative_to : Option ℚ) (start_time : ℚ)
    (settle_keys : List KeyEvent) (settle_clicks : List MouseEvent)
    (clock_at : ℕ → ℚ) (buf_at : ℕ → List MouseEvent)
    (kb_buf_end : List KeyEvent) (fuel : ℕ) : ClickOut :=
  let init := init_wait_click kb m max_wait min_wait live_buttons timestamp
    relative_to start_time settle_keys settle_clicks
  match init.result with
  | .error er => { log := none, result := .error er }
  | .ok (rel, st) =>
      let clicked := wait_many_click_loop m live_buttons st max_wait
        clock_at buf_at fuel 0 []
      correct_clicks { kb with keyboard_buffer := kb_buf_end } m
        clicked timestamp rel

/-! ## Helper lemmas -/

/-- A list force-quit check succeeds when none of the keys is in the
force-quit set. -/
lemma check_force_quit_list_ok (kb : Keyboard) (ks : List String)
    (h : ∀ k ∈ ks, k ∉ kb.force_quit_keys) :
    check_force_quit kb (.list ks) = .ok () := by
  simp only [check_force_quit]
  rw [if_pos]
  simp only [List.isEmpty_iff, List.filter_eq_nil_iff]
  intro k hk
  simpa using h k hk

/-- A list force-quit check raises when some key is in the force-quit
set. -/
lemma check_force_quit_list_quit (kb : Keyboard) (ks : List String)
    (h : ∃ k ∈ ks, k ∈ kb.force_quit_keys) :
    check_force_quit kb (.list ks) = .error .forceQuit := by
  obtain ⟨k, hk, hfq⟩ := h
  simp only [check_force_quit]
  rw [if_neg]
  simp only [List.isEmpty_iff, List.filter_eq_nil_iff, not_forall]
  exact ⟨k, hk, by simpa using hfq⟩

/-- The parameterless force-quit check succeeds when no buffered key is in
the force-quit set. -/
lemma check_force_quit_none_ok (kb : Keyboard)
    (h : ∀ e ∈ kb.keyboard_buffer, e.1 ∉ kb.force_quit_keys) :
    check_force_quit kb .noKeys = .ok () := by
  simp only [check_force_quit, retrieve_keyboard_events]
  rw [if_pos]
  simp only [List.isEmpty_iff, List.filter_eq_nil_iff]
  intro e he
  simpa using h e he

/-- The parameterless force-quit check raises when some buffered key is in
the force-quit set. -/
lemma check_force_quit_none_quit (kb : Keyboard)
    (h : ∃ e ∈ kb.keyboard_buffer, e.1 ∈ kb.force_quit_keys) :
    check_force_quit kb .noKeys = .error .forceQuit := by
  obtain ⟨e, he, hfq⟩ := h
  simp only [check_force_quit, retrieve_keyboard_events]
  rw [if_neg]
  simp only [List.isEmpty_iff, List.filter_eq_nil_iff, not_forall]
  exact ⟨e, he, by simpa using hfq⟩

/-- What `correct_presses` hands to the recorder: nothing on an empty list,
otherwise the corrected tuples, regardless of the force-quit outcome. -/
lemma correct_presses_log (kb : Keyboard) (pressed : List KeyEvent)
    (ts : Bool) (rto : Option ℚ) :
    (correct_presses kb pressed ts rto).log =
      if pressed.isEmpty then none
      else some (pressed.map (fun e => (e.1, e.2 + kb.time_correction))) := by
  unfold correct_presses
  split
  next hp => simp [hp]
  next hp =>
    dsimp only
    repeat' split
    all_goals rfl

/-- The keys fed to the in-correction force-quit check are the keys of the
retrieved events. -/
lemma mem_corrected_keys (kb : Keyboard) (pressed : List KeyEvent)
    (h : ∀ e ∈ pressed, e.1 ∉ kb.force_quit_keys) :
    ∀ k ∈ (pressed.map (fun e => (e.1, e.2 + kb.time_correction))).map
      (fun e => e.1), k ∉ kb.force_quit_keys := by
  intro k hk
  rw [List.map_map] at hk
  obtain ⟨e, he, rfl⟩ := List.mem_map.mp hk
  exact h e he

/-- The result of `correct_presses` with a timestamp, when no retrieved key
is a force-quit key. -/
lemma correct_presses_result_timed (kb : Keyboard) (pressed : List KeyEvent)
    (r : ℚ) (h : ∀ e ∈ pressed, e.1 ∉ kb.force_quit_keys) :
    (correct_presses kb pressed true (some r)).result =
      .ok (pressed.map (fun e => .timed e.1 (e.2 + kb.time_correction - r))) := by
  unfold correct_presses
  split
  next hp => simp [List.isEmpty_iff.mp hp]
  next hp =>
    dsimp only
    rw [check_force_quit_list_ok kb _ (mem_corrected_keys kb pressed h)]
    dsimp only
    rw [List.map_map]
    rfl

/-- The result of `correct_presses` without a timestamp, when no retrieved
key is a force-quit key. -/
lemma correct_presses_result_bare (kb : Keyboard) (pressed : List KeyEvent)
    (rto : Option ℚ) (h : ∀ e ∈ pressed, e.1 ∉ kb.force_quit_keys) :
    (correct_presses kb pressed false rto).result =
      .ok (pressed.map (fun e => .bare e.1)) := by
  unfold correct_presses
  split
  next hp => simp [List.isEmpty_iff.mp hp]
  next hp =>
    dsimp only
    rw [check_force_quit_list_ok kb _ (mem_corrected_keys kb pressed h)]
    dsimp only
    rw [List.map_map, List.map_map]
    rfl

/-- What `correct_clicks` hands to the recorder. -/
lemma correct_clicks_log (kb : Keyboard) (m : Mouse)
    (clicked : List MouseEvent) (ts : Bool) (rto : Option ℚ) :
    (correct_clicks kb m clicked ts rto).log =
      if clicked.isEmpty then none
      else some (clicked.map (fun e => { e with t := e.t + m.time_correction })) := by
  unfold correct_clicks
  split
  next hp => simp [hp]
  next hp =>
    dsimp only
    repeat' split
    all_goals rfl

/-- The result of `correct_clicks` with a timestamp, when no buffered
keyboard key is a force-quit key. -/
lemma correct_clicks_result_timed (kb : Keyboard) (m : Mouse)
    (clicked : List MouseEvent) (r : ℚ)
    (h : ∀ e ∈ kb.keyboard_buffer, e.1 ∉ kb.force_quit_keys) :
    (correct_clicks kb m clicked true (some r)).result =
      .ok (clicked.map
        (fun e => .timed e.button e.x e.y (e.t + m.time_correction - r))) := by
  unfold correct_clicks
  split
  next hp => simp [List.isEmpty_iff.mp hp]
  next hp =>
    dsimp only
    rw [check_force_quit_none_ok kb h]
    dsimp only
    rw [List.map_map]
    rfl

/-- The result of `correct_clicks` without a timestamp, when no buffered
keyboard key is a force-quit key. -/
lemma correct_clicks_result_bare (kb : Keyboard) (m : Mouse)
    (clicked : List MouseEvent) (rto : Option ℚ)
    (h : ∀ e ∈ kb.keyboard_buffer, e.1 ∉ kb.force_quit_keys) :
    (correct_clicks kb m clicked false rto).result =
      .ok (clicked.map (fun e => .bare e.button e.x e.y)) := by
  unfold correct_clicks
  split
  next hp => simp [List.isEmpty_iff.mp hp]
  next hp =>
    dsimp only
    rw [check_force_quit_none_ok kb h]
    dsimp only
    rw [List.map_map]
    rfl

/-- The parameterless force-quit check has exactly two outcomes. -/
lemma check_force_quit_noKeys_cases (kb : Keyboard) :
    check_force_quit kb .noKeys = .ok () ∨
    check_force_quit kb .noKeys = .error .forceQuit := by
  cases h : (retrieve_keyboard_events kb (some [])).isEmpty
  · exact Or.inr (by simp [check_force_quit, h])
  · exact Or.inl (by simp [check_force_quit, h])

/-- The list force-quit check has exactly two outcomes. -/
lemma check_force_quit_list_cases (kb : Keyboard) (ks : List String) :
    check_force_quit kb (.list ks) = .ok () ∨
    check_force_quit kb (.list ks) = .error .forceQuit := by
  cases h : (ks.filter (fun k => decide (k ∈ kb.force_quit_keys))).isEmpty
  · exact Or.inr (by simp [check_force_quit, h])
  · exact Or.inl (by simp [check_force_quit, h])

/-- The corrected result raises the quit error when some retrieved key is
in the force-quit set (the log still carries the corrected tuples). -/
lemma correct_presses_result_quit (kb : Keyboard) (pressed : List KeyEvent)
    (ts : Bool) (rto : Option ℚ)
    (h : ∃ e ∈ pressed, e.1 ∈ kb.force_quit_keys) :
    (correct_presses kb pressed ts rto).result = .error .forceQuit := by
  obtain ⟨e, he, hfq⟩ := h
  unfold correct_presses
  split
  next hp => rw [List.isEmpty_iff.mp hp] at he; cases he
  next hp =>
    dsimp only
    rw [check_force_quit_list_quit]
    exact ⟨e.1, by
      rw [List.map_map]
      exact List.mem_map.mpr ⟨e, he, rfl⟩, hfq⟩

/-- The mouse correction step on a non-empty click list propagates the
delegated keyboard force-quit error. -/
lemma correct_clicks_result_quit (kb : Keyboard) (m : Mouse)
    (clicked : List MouseEvent) (ts : Bool) (rto : Option ℚ)
    (hne : clicked ≠ [])
    (h : ∃ e ∈ kb.keyboard_buffer, e.1 ∈ kb.force_quit_keys) :
    (correct_clicks kb m clicked ts rto).result = .error .forceQuit := by
  unfold correct_clicks
  split
  next hp => exact absurd (List.isEmpty_iff.mp hp) hne
  next hp =>
    dsimp only
    rw [check_force_quit_none_quit kb h]

/-- A buffered force-quit key passes every keyboard filter (be it `None` or
an augmented list). -/
lemma retrieve_keyboard_mem_fq (kb : Keyboard) (live : Option (List String))
    (e : KeyEvent) (he : e ∈ kb.keyboard_buffer)
    (hfq : e.1 ∈ kb.force_quit_keys) :
    e ∈ retrieve_keyboard_events kb live := by
  cases live with
  | none => exact he
  | some ks =>
      exact List.mem_filter.mpr ⟨he, by
        simp only [decide_eq_true_eq, List.mem_append]
        exact Or.inr hfq⟩

/-- On valid arguments, a force-quit key present in the buffer when the
settle sleep ends makes `_init_wait_press` raise after the check and before
the clear. -/
lemma init_wait_press_quit (kb : Keyboard) (max_wait : Wait) (min_wait : ℚ)
    (live : Option (List String)) (ts : Bool) (rto : Option ℚ) (st : ℚ)
    (sa : List KeyEvent)
    (hv1 : ¬(max_wait.isInf = true ∧ live = some []))
    (hv2 : waitLe min_wait max_wait = true)
    (hfq : ∃ e ∈ kb.keyboard_buffer ++ sa, e.1 ∈ kb.force_quit_keys) :
    init_wait_press kb max_wait min_wait live ts rto st sa =
      { result := .error .forceQuit,
        kb := { kb with keyboard_buffer := kb.keyboard_buffer ++ sa },
        trace := [.waitSecs min_wait, .checkQuit] } := by
  have h1 : (max_wait.isInf && decide (live = some [])) ≠ true := by
    intro h
    rw [Bool.and_eq_true, decide_eq_true_eq] at h
    exact hv1 ⟨h.1, h.2⟩
  have h2 : (!(waitLe min_wait max_wait)) ≠ true := by simp [hv2]
  unfold init_wait_press
  rw [if_neg h1, if_neg h2]
  dsimp only
  rw [check_force_quit_none_quit _ hfq]

/-- On valid arguments and a quiet settle window, `_init_wait_press`
sleeps, checks, clears the buffer, and returns the resolved
`(relative_to, start_time)` pair. -/
lemma init_wait_press_ok (kb : Keyboard) (max_wait : Wait) (min_wait : ℚ)
    (live : Option (List String)) (ts : Bool) (rto : Option ℚ) (st : ℚ)
    (sa : List KeyEvent)
    (hv1 : ¬(max_wait.isInf = true ∧ live = some []))
    (hv2 : waitLe min_wait max_wait = true)
    (hq : ∀ e ∈ kb.keyboard_buffer ++ sa, e.1 ∉ kb.force_quit_keys) :
    init_wait_press kb max_wait min_wait live ts rto st sa =
      { result := .ok ((if ts && rto.isNone then some st else rto), st),
        kb := { kb with keyboard_buffer := [] },
        trace := [.waitSecs min_wait, .checkQuit, .clearEvents] } := by
  have h1 : (max_wait.isInf && decide (live = some [])) ≠ true := by
    intro h
    rw [Bool.and_eq_true, decide_eq_true_eq] at h
    exact hv1 ⟨h.1, h.2⟩
  have h2 : (!(waitLe min_wait max_wait)) ≠ true := by simp [hv2]
  unfold init_wait_press
  rw [if_neg h1, if_neg h2]
  dsimp only
  rw [check_force_quit_none_ok _ hq]

/-- Mouse analogue of `init_wait_press_quit`: the delegated keyboard check
raises; neither buffer is cleared. -/
lemma init_wait_click_quit (kb : Keyboard) (m : Mouse) (max_wait : Wait)
    (min_wait : ℚ) (live : Option (List String)) (ts : Bool)
    (rto : Option ℚ) (st : ℚ) (sa : List KeyEvent) (sc : List MouseEvent)
    (hv1 : ¬(max_wait.isInf = true ∧ live = some []))
    (hv2 : waitLe min_wait max_wait = true)
    (hfq : ∃ e ∈ kb.keyboard_buffer ++ sa, e.1 ∈ kb.force_quit_keys) :
    init_wait_click kb m max_wait min_wait live ts rto st sa sc =
      { result := .error .forceQuit,
        kb := { kb with keyboard_buffer := kb.keyboard_buffer ++ sa },
        m := { m with mouse_buffer := m.mouse_buffer ++ sc },
        trace := [.waitSecs min_wait, .checkQuit] } := by
  have h1 : (max_wait.isInf && decide (live = some [])) ≠ true := by
    intro h
    rw [Bool.and_eq_true, decide_eq_true_eq] at h
    exact hv1 ⟨h.1, h.2⟩
  have h2 : (!(waitLe min_wait max_wait)) ≠ true := by simp [hv2]
  unfold init_wait_click
  rw [if_neg h1, if_neg h2]
  dsimp only
  rw [check_force_quit_none_quit _ hfq]

/-- Mouse analogue of `init_wait_press_ok`: the mouse buffer is cleared,
the keyboard buffer keeps its (pumped) contents. -/
lemma init_wait_click_ok (kb : Keyboard) (m : Mouse) (max_wait : Wait)
    (min_wait : ℚ) (live : Option (List String)) (ts : Bool)
    (rto : Option ℚ) (st : ℚ) (sa : List KeyEvent) (sc : List MouseEvent)
    (hv1 : ¬(max_wait.isInf = true ∧ live = some []))
    (hv2 : waitLe min_wait max_wait = true)
    (hq : ∀ e ∈ kb.keyboard_buffer ++ sa, e.1 ∉ kb.force_quit_keys) :
    init_wait_click kb m max_wait min_wait live ts rto st sa sc =
      { result := .ok ((if ts && rto.isNone then some st else rto), st),
        kb := { kb with keyboard_buffer := kb.keyboard_buffer ++ sa },
        m := { m with mouse_buffer := [] },
        trace := [.waitSecs min_wait, .checkQuit, .clearEvents] } := by
  have h1 : (max_wait.isInf && decide (live = some [])) ≠ true := by
    intro h
    rw [Bool.and_eq_true, decide_eq_true_eq] at h
    exact hv1 ⟨h.1, h.2⟩
  have h2 : (!(waitLe min_wait max_wait)) ≠ true := by simp [hv2]
  unfold init_wait_click
  rw [if_neg h1, if_neg h2]
  dsimp only
  rw [check_force_quit_none_ok _ hq]

/-- A non-empty `pressed` makes the first-event loop return immediately. -/
lemma wait_press_loop_stable (kb : Keyboard) (live : Option (List String))
    (st : ℚ) (mw : Wait) (clock_at : ℕ → ℚ) (buf_at : ℕ → List KeyEvent)
    (fuel i : ℕ) (pressed : List KeyEvent) (h : pressed ≠ []) :
    wait_press_loop kb live st mw clock_at buf_at fuel i pressed = pressed := by
  have hie : pressed.isEmpty = false := by
    cases pressed with
    | nil => exact absurd rfl h
    | cons a l => rfl
  cases fuel with
  | zero => rfl
  | succ fuel => simp [wait_press_loop, hie]

/-- If every poll retrieves nothing, the first-event loop ends with the
empty list. -/
lemma wait_press_loop_empty (kb : Keyboard) (live : Option (List String))
    (st : ℚ) (mw : Wait) (clock_at : ℕ → ℚ) (buf_at : ℕ → List KeyEvent)
    (h : ∀ k, retrieve_keyboard_events { kb with keyboard_buffer := buf_at k }
      live = []) :
    ∀ fuel i, wait_press_loop kb live st mw clock_at buf_at fuel i [] = [] := by
  intro fuel
  induction fuel with
  | zero => intro i; rfl
  | succ fuel ih =>
      intro i
      unfold wait_press_loop
      split
      · rw [h i]
        exact ih (i + 1)
      · rfl

/-- If the first poll that retrieves anything is poll `j`, and the clock
stays below `max_wait` through poll `j`, the first-event loop returns that
retrieval. -/
lemma wait_press_loop_first (kb : Keyboard) (live : Option (List String))
    (st : ℚ) (mw : Wait) (clock_at : ℕ → ℚ) (buf_at : ℕ → List KeyEvent)
    (j : ℕ) :
    ∀ fuel i, i ≤ j → j - i + 1 ≤ fuel →
      (∀ k, i ≤ k → k < j →
        retrieve_keyboard_events { kb with keyboard_buffer := buf_at k }
          live = []) →
      (∀ k, i ≤ k → k ≤ j → waitLt (clock_at k - st) mw = true) →
      retrieve_keyboard_events { kb with keyboard_buffer := buf_at j }
        live ≠ [] →
      wait_press_loop kb live st mw clock_at buf_at fuel i [] =
        retrieve_keyboard_events { kb with keyboard_buffer := buf_at j }
          live := by
  intro fuel
  induction fuel with
  | zero => intro i hij hfuel _ _ _; omega
  | succ fuel ih =>
      intro i hij hfuel hemp hclk hne
      have hcond : ((([] : List KeyEvent).isEmpty &&
          waitLt (clock_at i - st) mw) = true) := by
        simp [hclk i le_rfl hij]
      unfold wait_press_loop
      rw [if_pos hcond]
      rcases Nat.lt_or_ge i j with hlt | hge
      · rw [hemp i le_rfl hlt]
        exact ih (i + 1) hlt (by omega) (fun k h1 h2 => hemp k (by omega) h2)
          (fun k h1 h2 => hclk k (by omega) h2) hne
      · have hij' : i = j := le_antisymm hij hge
        subst hij'
        exact wait_press_loop_stable kb live st mw clock_at buf_at fuel
          (i + 1) _ hne

/-- The exhaustive loop runs until the first clock reading at or past
`max_wait` (poll `j`) and returns the retrieval of the poll just before
(or its initial argument if the clock was already past at the start). -/
lemma wait_many_press_loop_char (kb : Keyboard) (live : Option (List String))
    (st : ℚ) (mw : Wait) (clock_at : ℕ → ℚ) (buf_at : ℕ → List KeyEvent)
    (j : ℕ) (hj : waitLt (clock_at j - st) mw = false)
    (hcl : ∀ k < j, waitLt (clock_at k - st) mw = true) :
    ∀ fuel i pressed, i ≤ j → j - i + 1 ≤ fuel →
      wait_many_press_loop kb live st mw clock_at buf_at fuel i pressed =
        (if i = j then pressed
         else retrieve_keyboard_events
           { kb with keyboard_buffer := buf_at (j - 1) } live) := by
  intro fuel
  induction fuel with
  | zero => intro i pressed h1 h2; omega
  | succ fuel ih =>
      intro i pressed hij hfuel
      rcases Nat.lt_or_ge i j with hlt | hge
      · unfold wait_many_press_loop
        rw [if_pos (hcl i hlt), ih (i + 1) _ hlt (by omega),
          if_neg (by omega : ¬ i = j)]
        rcases Nat.lt_or_ge (i + 1) j with hlt2 | hge2
        · rw [if_neg (by omega : ¬ i + 1 = j)]
        · have h1 : i + 1 = j := by omega
          rw [if_pos h1]
          have h2 : i = j - 1 := by omega
          rw [h2]
      · have hij' : i = j := le_antisymm hij hge
        subst hij'
        have hcond : ¬ (waitLt (clock_at i - st) mw = true) := by simp [hj]
        unfold wait_many_press_loop
        rw [if_neg hcond, if_pos rfl]

/-- Mouse analogue of `wait_press_loop_stable`. -/
lemma wait_click_loop_stable (m : Mouse) (live : Option (List String))
    (st : ℚ) (mw : Wait) (clock_at : ℕ → ℚ) (buf_at : ℕ → List MouseEvent)
    (fuel i : ℕ) (clicked : List MouseEvent) (h : clicked ≠ []) :
    wait_click_loop m live st mw clock_at buf_at fuel i clicked = clicked := by
  have hie : clicked.isEmpty = false := by
    cases clicked with
    | nil => exact absurd rfl h
    | cons a l => rfl
  cases fuel with
  | zero => rfl
  | succ fuel => simp [wait_click_loop, hie]

/-- Mouse analogue of `wait_press_loop_empty`. -/
lemma wait_click_loop_empty (m : Mouse) (live : Option (List String))
    (st : ℚ) (mw : Wait) (clock_at : ℕ → ℚ) (buf_at : ℕ → List MouseEvent)
    (h : ∀ k, retrieve_mouse_events { m with mouse_buffer := buf_at k }
      live = []) :
    ∀ fuel i, wait_click_loop m live st mw clock_at buf_at fuel i [] = [] := by
  intro fuel
  induction fuel with
  | zero => intro i; rfl
  | succ fuel ih =>
      intro i
      unfold wait_click_loop
      split
      · rw [h i]
        exact ih (i + 1)
      · rfl

/-- Mouse analogue of `wait_press_loop_first`. -/
lemma wait_click_loop_first (m : Mouse) (live : Option (List String))
    (st : ℚ) (mw : Wait) (clock_at : ℕ → ℚ) (buf_at : ℕ → List MouseEvent)
    (j : ℕ) :
    ∀ fuel i, i ≤ j → j - i + 1 ≤ fuel →
      (∀ k, i ≤ k → k < j →
        retrieve_mouse_events { m with mouse_buffer := buf_at k } live = []) →
      (∀ k, i ≤ k → k ≤ j → waitLt (clock_at k - st) mw = true) →
      retrieve_mouse_events { m with mouse_buffer := buf_at j } live ≠ [] →
      wait_click_loop m live st mw clock_at buf_at fuel i [] =
        retrieve_mouse_events { m with mouse_buffer := buf_at j } live := by
  intro fuel
  induction fuel with
  | zero => intro i hij hfuel _ _ _; omega
  | succ fuel ih =>
      intro i hij hfuel hemp hclk hne
      have hcond : ((([] : List MouseEvent).isEmpty &&
          waitLt (clock_at i - st) mw) = true) := by
        simp [hclk i le_rfl hij]
      unfold wait_click_loop
      rw [if_pos hcond]
      rcases Nat.lt_or_ge i j with hlt | hge
      · rw [hemp i le_rfl hlt]
        exact ih (i + 1) hlt (by omega) (fun k h1 h2 => hemp k (by omega) h2)
          (fun k h1 h2 => hclk k (by omega) h2) hne
      · have hij' : i = j := le_antisymm hij hge
        subst hij'
        exact wait_click_loop_stable m live st mw clock_at buf_at fuel
          (i + 1) _ hne

/-- Mouse analogue of `wait_many_press_loop_char`. -/
lemma wait_many_click_loop_char (m : Mouse) (live : Option (List String))
    (st : ℚ) (mw : Wait) (clock_at : ℕ → ℚ) (buf_at : ℕ → List MouseEvent)
    (j : ℕ) (hj : waitLt (clock_at j - st) mw = false)
    (hcl : ∀ k < j, waitLt (clock_at k - st) mw = true) :
    ∀ fuel i clicked, i ≤ j → j - i + 1 ≤ fuel →
      wait_many_click_loop m live st mw clock_at buf_at fuel i clicked =
        (if i = j then clicked
         else retrieve_mouse_events
           { m with mouse_buffer := buf_at (j - 1) } live) := by
  intro fuel
  induction fuel with
  | zero => intro i clicked h1 h2; omega
  | succ fuel ih =>
      intro i clicked hij hfuel
      rcases Nat.lt_or_ge i j with hlt | hge
      · unfold wait_many_click_loop
        rw [if_pos (hcl i hlt), ih (i + 1) _ hlt (by omega),
          if_neg (by omega : ¬ i = j)]
        rcases Nat.lt_or_ge (i + 1) j with hlt2 | hge2
        · rw [if_neg (by omega : ¬ i + 1 = j)]
        · have h1 : i + 1 = j := by omega
          rw [if_pos h1]
          have h2 : i = j - 1 := by omega
          rw [h2]
      · have hij' : i = j := le_antisymm hij hge
        subst hij'
        have hcond : ¬ (waitLt (clock_at i - st) mw = true) := by simp [hj]
        unfold wait_many_click_loop
        rw [if_neg hcond, if_pos rfl]

/-- Keyboard retrieval is monotone in the buffer (needed to read the last
poll as the accumulation of all earlier polls). -/
lemma retrieve_keyboard_mono (kb : Keyboard) (live : Option (List String))
    (b1 b2 : List KeyEvent) (h : ∀ x ∈ b1, x ∈ b2) :
    ∀ x ∈ retrieve_keyboard_events { kb with keyboard_buffer := b1 } live,
      x ∈ retrieve_keyboard_events { kb with keyboard_buffer := b2 } live := by
  intro x hx
  cases live with
  | none => exact h x hx
  | some ks =>
      have h' := List.mem_filter.mp hx
      exact List.mem_filter.mpr ⟨h x h'.1, h'.2⟩

/-- Mouse analogue of `retrieve_keyboard_mono`. -/
lemma retrieve_mouse_mono (m : Mouse) (live : Option (List String))
    (b1 b2 : List MouseEvent) (h : ∀ x ∈ b1, x ∈ b2) :
    ∀ x ∈ retrieve_mouse_events { m with mouse_buffer := b1 } live,
      x ∈ retrieve_mouse_events { m with mouse_buffer := b2 } live := by
  intro x hx
  cases live with
  | none => exact h x hx
  | some bs =>
      have h' := List.mem_filter.mp hx
      exact List.mem_filter.mpr ⟨h x h'.1, h'.2⟩

/-! ## Claims -/

/-- C1: for every retrieved event with device-local time t0 and session
time correction c, the tuple logged via the recorder carries t0 + c; with a
timestamp and relative_to = r the caller gets t0 + c - r; without a
timestamp the time is omitted (bare keys / (button, x, y) triples). -/
theorem C1_time_correction (kb : Keyboard) (m : Mouse)
    (pressed : List KeyEvent) (clicked : List MouseEvent) (r : ℚ)
    (rto : Option ℚ)
    (hk : ∀ e ∈ pressed, e.1 ∉ kb.force_quit_keys)
    (hb : ∀ e ∈ kb.keyboard_buffer, e.1 ∉ kb.force_quit_keys) :
    ((correct_presses kb pressed true (some r)).log =
      if pressed.isEmpty then none
      else some (pressed.map (fun e => (e.1, e.2 + kb.time_correction)))) ∧
    ((correct_presses kb pressed true (some r)).result =
      .ok (pressed.map (fun e => .timed e.1 (e.2 + kb.time_correction - r)))) ∧
    ((correct_presses kb pressed false rto).result =
      .ok (pressed.map (fun e => .bare e.1))) ∧
    ((correct_clicks kb m clicked true (some r)).log =
      if clicked.isEmpty then none
      else some (clicked.map (fun e => { e with t := e.t + m.time_correction }))) ∧
    ((correct_clicks kb m clicked true (some r)).result =
      .ok (clicked.map
        (fun e => .timed e.button e.x e.y (e.t + m.time_correction - r)))) ∧
    ((correct_clicks kb m clicked false rto).result =
      .ok (clicked.map (fun e => .bare e.button e.x e.y))) :=
  ⟨correct_presses_log kb pressed true (some r),
   correct_presses_result_timed kb pressed r hk,
   correct_presses_result_bare kb pressed rto hk,
   correct_clicks_log kb m clicked true (some r),
   correct_clicks_result_timed kb m clicked r hb,
   correct_clicks_result_bare kb m clicked rto hb⟩

/-- Witness for C1 at a concrete input: one press ("a", 1) with correction
2 and relative_to 3, one click ("left", 5, 6, 1). -/
theorem C1_time_correction_witness :
    (∀ e ∈ ([("a", 1)] : List KeyEvent), e.1 ∉ ["esc"]) ∧
    (∀ e ∈ ([] : List KeyEvent), e.1 ∉ ["esc"]) ∧
    ((correct_presses ⟨["esc"], 2, none, []⟩ [("a", 1)] true (some 3)).log =
      some [("a", 1 + 2)]) ∧
    ((correct_presses ⟨["esc"], 2, none, []⟩ [("a", 1)] true (some 3)).result =
      .ok [.timed "a" (1 + 2 - 3)]) ∧
    ((correct_clicks ⟨["esc"], 2, none, []⟩ ⟨2, none, []⟩
        [⟨"left", 5, 6, 1⟩] true (some 3)).result =
      .ok [.timed "left" 5 6 (1 + 2 - 3)]) := by
  have h := C1_time_correction ⟨["esc"], 2, none, []⟩ ⟨2, none, []⟩
    [("a", 1)] [⟨"left", 5, 6, 1⟩] 3 none (by decide) (by decide)
  exact ⟨by decide, by decide, by simpa using h.1, by simpa using h.2.1,
    by simpa using h.2.2.2.2.1⟩

/-- C2: every wait variant, after validating its arguments, sleeps out the
settle delay, runs the force-quit check exactly once, then clears the event
buffer, in that order; so non-force-quit events arriving during the settle
window are discarded before polling begins, while a force-quit key pressed
during the settle window aborts (leaving the buffer uncleared). -/
theorem C2_settle_sequence (kb : Keyboard) (m : Mouse) (max_wait : Wait)
    (min_wait : ℚ) (livek liveb : Option (List String)) (ts : Bool)
    (rto : Option ℚ) (st : ℚ) (sa : List KeyEvent) (sc : List MouseEvent)
    (hv1 : ¬(max_wait.isInf = true ∧ livek = some []))
    (hv2 : ¬(max_wait.isInf = true ∧ liveb = some []))
    (hle : waitLe min_wait max_wait = true) :
    ((∃ e ∈ kb.keyboard_buffer ++ sa, e.1 ∈ kb.force_quit_keys) →
      (init_wait_press kb max_wait min_wait livek ts rto st sa).result =
          .error .forceQuit ∧
      (init_wait_press kb max_wait min_wait livek ts rto st sa).trace =
          [.waitSecs min_wait, .checkQuit] ∧
      (init_wait_click kb m max_wait min_wait liveb ts rto st sa sc).result =
          .error .forceQuit ∧
      (init_wait_click kb m max_wait min_wait liveb ts rto st sa sc).trace =
          [.waitSecs min_wait, .checkQuit]) ∧
    ((∀ e ∈ kb.keyboard_buffer ++ sa, e.1 ∉ kb.force_quit_keys) →
      (init_wait_press kb max_wait min_wait livek ts rto st sa).trace =
          [.waitSecs min_wait, .checkQuit, .clearEvents] ∧
      (init_wait_press kb max_wait min_wait livek ts rto st sa).kb.keyboard_buffer
          = [] ∧
      (init_wait_press kb max_wait min_wait livek ts rto st sa).result =
          .ok ((if ts && rto.isNone then some st else rto), st) ∧
      (init_wait_click kb m max_wait min_wait liveb ts rto st sa sc).trace =
          [.waitSecs min_wait, .checkQuit, .clearEvents] ∧
      (init_wait_click kb m max_wait min_wait liveb ts rto st sa sc).m.mouse_buffer
          = [] ∧
      (init_wait_click kb m max_wait min_wait liveb ts rto st sa sc).result =
          .ok ((if ts && rto.isNone then some st else rto), st)) := by
  constructor
  · intro hfq
    rw [init_wait_press_quit kb max_wait min_wait livek ts rto st sa hv1 hle hfq,
      init_wait_click_quit kb m max_wait min_wait liveb ts rto st sa sc hv2 hle hfq]
    exact ⟨rfl, rfl, rfl, rfl⟩
  · intro hq
    rw [init_wait_press_ok kb max_wait min_wait livek ts rto st sa hv1 hle hq,
      init_wait_click_ok kb m max_wait min_wait liveb ts rto st sa sc hv2 hle hq]
    exact ⟨rfl, rfl, rfl, rfl, rfl, rfl⟩

/-- Witness for C2: a quiet settle window with a non-force-quit arrival is
discarded and the full sleep/check/clear trace is performed; a settle
window containing an "esc" press aborts with the quit error before the
clear. -/
theorem C2_settle_sequence_witness :
    ((init_wait_press ⟨["esc"], 0, none, []⟩ (some 10) 1 none false none 0
        [("a", 2)]).trace = [.waitSecs 1, .checkQuit, .clearEvents]) ∧
    ((init_wait_press ⟨["esc"], 0, none, []⟩ (some 10) 1 none false none 0
        [("a", 2)]).kb.keyboard_buffer = []) ∧
    ((init_wait_press ⟨["esc"], 0, none, []⟩ (some 10) 1 none false none 0
        [("esc", 2)]).result = .error .forceQuit) := by
  have h1 := (C2_settle_sequence ⟨["esc"], 0, none, []⟩ ⟨0, none, []⟩ (some 10)
    1 none none false none 0 [("a", 2)] [] (by decide) (by decide)
    (by decide)).2 (by decide)
  have h2 := (C2_settle_sequence ⟨["esc"], 0, none, []⟩ ⟨0, none, []⟩ (some 10)
    1 none none false none 0 [("esc", 2)] [] (by decide) (by decide)
    (by decide)).1 (by decide)
  exact ⟨h1.1, h1.2.1, h2.1⟩

/-- C4: for every wait variant of both monitors, an infinite max_wait with
an explicitly empty filter list raises the first config error, min_wait
greater than max_wait raises the second, both before any waiting,
force-quit checking, or clearing (empty trace, state unchanged), and
min_wait equal to max_wait passes validation. -/
theorem C4_wait_validation (kb : Keyboard) (m : Mouse) (max_wait : Wait)
    (min_wait : ℚ) (live : Option (List String)) (ts : Bool)
    (rto : Option ℚ) (st : ℚ) (sa : List KeyEvent) (sc : List MouseEvent) :
    ((max_wait.isInf = true ∧ live = some []) →
      init_wait_press kb max_wait min_wait live ts rto st sa =
        { result := .error .configErrorInfinite, kb := kb, trace := [] } ∧
      init_wait_click kb m max_wait min_wait live ts rto st sa sc =
        { result := .error .configErrorInfinite, kb := kb, m := m,
          trace := [] }) ∧
    (waitLe min_wait max_wait = false →
      init_wait_press kb max_wait min_wait live ts rto st sa =
        { result := .error .configErrorMinMax, kb := kb, trace := [] } ∧
      init_wait_click kb m max_wait min_wait live ts rto st sa sc =
        { result := .error .configErrorMinMax, kb := kb, m := m,
          trace := [] }) ∧
    (max_wait = some min_wait →
      (init_wait_press kb max_wait min_wait live ts rto st sa).result ≠
          .error .configErrorInfinite ∧
      (init_wait_press kb max_wait min_wait live ts rto st sa).result ≠
          .error .configErrorMinMax ∧
      (init_wait_click kb m max_wait min_wait live ts rto st sa sc).result ≠
          .error .configErrorInfinite ∧
      (init_wait_click kb m max_wait min_wait live ts rto st sa sc).result ≠
          .error .configErrorMinMax) := by
  refine ⟨?_, ?_, ?_⟩
  · rintro ⟨hinf, hlive⟩
    subst hlive
    unfold init_wait_press init_wait_click
    rw [hinf]
    exact ⟨rfl, rfl⟩
  · intro hle
    cases max_wait with
    | none => simp [waitLe] at hle
    | some mw =>
        unfold init_wait_press init_wait_click
        rw [hle]
        simp only [Wait.isInf, Bool.false_and, Bool.not_false]
        exact ⟨rfl, rfl⟩
  · intro heq
    subst heq
    have hle : waitLe min_wait (some min_wait) = true := by
      simp [waitLe]
    unfold init_wait_press init_wait_click
    rw [hle]
    simp only [Wait.isInf, Bool.false_and, Bool.not_true]
    rcases check_force_quit_noKeys_cases
        { kb with keyboard_buffer := kb.keyboard_buffer ++ sa } with hc | hc <;>
      rw [hc] <;> exact ⟨by simp, by simp, by simp, by simp⟩

/-- Witness for C4: infinite max_wait with an empty list raises the first
config error; min_wait 2 over max_wait 1 raises the second; min_wait equal
to max_wait 3 passes validation. -/
theorem C4_wait_validation_witness :
    (init_wait_press ⟨["esc"], 0, none, []⟩ none 0 (some []) false none 0 [] =
      { result := .error .configErrorInfinite,
        kb := ⟨["esc"], 0, none, []⟩, trace := [] }) ∧
    (init_wait_press ⟨["esc"], 0, none, []⟩ (some 1) 2 none false none 0 [] =
      { result := .error .configErrorMinMax,
        kb := ⟨["esc"], 0, none, []⟩, trace := [] }) ∧
    ((init_wait_press ⟨["esc"], 0, none, []⟩ (some 3) 3 none false none 0
        []).result ≠ .error .configErrorMinMax) := by
  refine ⟨?_, ?_, ?_⟩
  · exact ((C4_wait_validation ⟨["esc"], 0, none, []⟩ ⟨0, none, []⟩ none 0
      (some []) false none 0 [] []).1 ⟨rfl, rfl⟩).1
  · exact ((C4_wait_validation ⟨["esc"], 0, none, []⟩ ⟨0, none, []⟩ (some 1) 2
      none false none 0 [] []).2.1 (by decide)).1
  · exact ((C4_wait_validation ⟨["esc"], 0, none, []⟩ ⟨0, none, []⟩ (some 3) 3
      none false none 0 [] []).2.2 rfl).2.1

/-- C5: with a timestamp requested and relative_to unset, get_presses and
get_clicks raise the state error when no listen session ever started —
independently of the buffer contents and before anything is logged — and
otherwise default relative_to to the session's listen_start (visible as the
subtracted origin of the returned times). -/
theorem C5_timestamp_default (kb : Keyboard) (m : Mouse)
    (livek liveb : Option (List String)) (lsk lsm : ℚ) :
    (kb.listen_start = none →
      (get_presses kb livek true none).result = .error .stateError ∧
      (get_presses kb livek true none).log = none) ∧
    (kb.listen_start = some lsk →
      (∀ e ∈ retrieve_keyboard_events kb livek, e.1 ∉ kb.force_quit_keys) →
      (get_presses kb livek true none).result =
        .ok ((retrieve_keyboard_events kb livek).map
          (fun e => .timed e.1 (e.2 + kb.time_correction - lsk)))) ∧
    (m.listen_start = none →
      (get_clicks kb m liveb true none).result = .error .stateError ∧
      (get_clicks kb m liveb true none).log = none) ∧
    (m.listen_start = some lsm →
      (∀ e ∈ kb.keyboard_buffer, e.1 ∉ kb.force_quit_keys) →
      (get_clicks kb m liveb true none).result =
        .ok ((retrieve_mouse_events m liveb).map
          (fun e => .timed e.button e.x e.y (e.t + m.time_correction - lsm)))) := by
  refine ⟨?_, ?_, ?_, ?_⟩
  · intro h
    unfold get_presses
    rw [h]
    exact ⟨rfl, rfl⟩
  · intro h hq
    unfold get_presses
    rw [h]
    exact correct_presses_result_timed kb _ lsk hq
  · intro h
    unfold get_clicks
    rw [h]
    exact ⟨rfl, rfl⟩
  · intro h hq
    unfold get_clicks
    rw [h]
    exact correct_clicks_result_timed kb m _ lsm hq

/-- Witness for C5: with no session, a timestamped get_presses raises the
state error; with listen_start = 5, a buffered press at local time 1 with
correction 2 is reported at 1 + 2 - 5. -/
theorem C5_timestamp_default_witness :
    ((get_presses ⟨["esc"], 2, none, [("a", 1)]⟩ none true none).result =
      .error .stateError) ∧
    ((get_presses ⟨["esc"], 2, some 5, [("a", 1)]⟩ none true none).result =
      .ok [.timed "a" (1 + 2 - 5)]) := by
  have h1 := ((C5_timestamp_default ⟨["esc"], 2, none, [("a", 1)]⟩
    ⟨0, none, []⟩ none none 0 0).1 rfl).1
  have h2 := (C5_timestamp_default ⟨["esc"], 2, some 5, [("a", 1)]⟩
    ⟨0, none, []⟩ none none 5 0).2.1 rfl (by decide)
  exact ⟨h1, by simpa using h2⟩

/-- C6: check_force_quit with keys unset tests exactly the buffered events
matching the force-quit set; a string behaves as its one-element list; a
list is intersected with the force-quit set, raising the quit error iff the
intersection is non-empty; any other type raises the type error. -/
theorem C6_check_force_quit (kb : Keyboard) (s : String) (ks : List String) :
    (check_force_quit kb .noKeys =
      (if (kb.keyboard_buffer.filter
          (fun e => decide (e.1 ∈ kb.force_quit_keys))).isEmpty
        then .ok () else .error .forceQuit)) ∧
    (check_force_quit kb (.str s) = check_force_quit kb (.list [s])) ∧
    (s ∈ kb.force_quit_keys →
      check_force_quit kb (.str s) = .error .forceQuit) ∧
    (s ∉ kb.force_quit_keys → check_force_quit kb (.str s) = .ok ()) ∧
    ((∃ k ∈ ks, k ∈ kb.force_quit_keys) →
      check_force_quit kb (.list ks) = .error .forceQuit) ∧
    ((∀ k ∈ ks, k ∉ kb.force_quit_keys) →
      check_force_quit kb (.list ks) = .ok ()) ∧
    (check_force_quit kb .other = .error .typeError) := by
  refine ⟨rfl, rfl, ?_, ?_, ?_, ?_, rfl⟩
  · intro h
    simp [check_force_quit, h]
  · intro h
    simp [check_force_quit, h]
  · intro h
    exact check_force_quit_list_quit kb ks h
  · intro h
    exact check_force_quit_list_ok kb ks h

/-- Witness for C6 with force-quit set consisting of "esc": checking "esc"
raises the quit error, checking "x" is a no-op, checking a non-string
non-list raises the type error. -/
theorem C6_check_force_quit_witness :
    (check_force_quit ⟨["esc"], 0, none, []⟩ (.str "esc") =
      .error .forceQuit) ∧
    (check_force_quit ⟨["esc"], 0, none, []⟩ (.str "x") = .ok ()) ∧
    (check_force_quit ⟨["esc"], 0, none, []⟩ .other = .error .typeError) := by
  have h := C6_check_force_quit ⟨["esc"], 0, none, []⟩ "esc" []
  have h' := C6_check_force_quit ⟨["esc"], 0, none, []⟩ "x" []
  exact ⟨h.2.2.1 (by decide), h'.2.2.2.1 (by decide), h.2.2.2.2.2.2⟩

/-- C7: the keyboard's retrieval matches a non-None filter augmented with
the force-quit set (a buffered force-quit press is retrieved under any
filter, even the empty one), a None filter accepts everything; the mouse's
retrieval never augments (an empty filter retrieves nothing, every
retrieved event matches the given filter), and mouse force-quit raising in
the correction step coincides exactly with the delegated keyboard
check_force_quit outcome. -/
theorem C7_filter_augmentation (kb : Keyboard) (m : Mouse)
    (ks bs : List String) :
    (∀ e ∈ kb.keyboard_buffer, e.1 ∈ kb.force_quit_keys →
      e ∈ retrieve_keyboard_events kb (some ks)) ∧
    (retrieve_keyboard_events kb none = kb.keyboard_buffer) ∧
    (∀ e ∈ retrieve_mouse_events m (some bs), e.button ∈ bs) ∧
    (retrieve_mouse_events m (some []) = []) ∧
    (∀ clicked ts rto, clicked ≠ ([] : List MouseEvent) →
      ((correct_clicks kb m clicked ts rto).result = .error .forceQuit ↔
        check_force_quit kb .noKeys = .error .forceQuit)) := by
  refine ⟨?_, rfl, ?_, ?_, ?_⟩
  · intro e he hfq
    exact retrieve_keyboard_mem_fq kb (some ks) e he hfq
  · intro e he
    have h := List.mem_filter.mp he
    simpa using h.2
  · simp [retrieve_mouse_events]
  · intro clicked ts rto hne
    rcases check_force_quit_noKeys_cases kb with hc | hc
    · have hr : (correct_clicks kb m clicked ts rto).result ≠
          .error .forceQuit := by
        unfold correct_clicks
        split
        next hp => simp
        next hp =>
          dsimp only
          rw [hc]
          cases ts <;> cases rto <;> simp
      simp [hr, hc]
    · have hr : (correct_clicks kb m clicked ts rto).result =
          .error .forceQuit := by
        unfold correct_clicks
        split
        next hp => exact absurd (List.isEmpty_iff.mp hp) hne
        next hp =>
          dsimp only
          rw [hc]
      simp [hr, hc]

/-- Witness for C7: with force-quit set "esc" and a buffered "esc" press,
the press is retrieved under the empty filter, and a one-click correction
raises the quit error exactly because the delegated keyboard check does. -/
theorem C7_filter_augmentation_witness :
    (("esc", (0 : ℚ)) ∈
      retrieve_keyboard_events ⟨["esc"], 0, none, [("esc", 0)]⟩ (some [])) ∧
    ((correct_clicks ⟨["esc"], 0, none, [("esc", 0)]⟩ ⟨0, none, []⟩
        [⟨"left", 1, 2, 3⟩] false none).result = .error .forceQuit) := by
  have h := C7_filter_augmentation ⟨["esc"], 0, none, [("esc", 0)]⟩
    ⟨0, none, []⟩ [] []
  refine ⟨h.1 ("esc", 0) (by decide) (by decide), ?_⟩
  exact (h.2.2.2.2 [⟨"left", 1, 2, 3⟩] false none (by decide)).mpr rfl

/-- C10: without a timestamp, get_presses and get_clicks never raise the
no-session state error — the result is unchanged under any listen_start
and relative_to — and, absent force-quit presses, they return the filtered
buffer contents as bare identifiers. -/
theorem C10_no_timestamp (kb : Keyboard) (m : Mouse)
    (livek liveb : Option (List String)) (rto rto' : Option ℚ)
    (ls ls' : Option ℚ) :
    ((get_presses kb livek false rto).result ≠ .error .stateError) ∧
    (get_presses kb livek false rto =
      get_presses { kb with listen_start := ls } livek false rto') ∧
    ((∀ e ∈ retrieve_keyboard_events kb livek, e.1 ∉ kb.force_quit_keys) →
      (get_presses kb livek false rto).result =
        .ok ((retrieve_keyboard_events kb livek).map (fun e => .bare e.1))) ∧
    ((get_clicks kb m liveb false rto).result ≠ .error .stateError) ∧
    (get_clicks kb m liveb false rto =
      get_clicks kb { m with listen_start := ls' } liveb false rto') ∧
    ((∀ e ∈ kb.keyboard_buffer, e.1 ∉ kb.force_quit_keys) →
      (get_clicks kb m liveb false rto).result =
        .ok ((retrieve_mouse_events m liveb).map
          (fun e => .bare e.button e.x e.y))) := by
  refine ⟨?_, rfl, ?_, ?_, rfl, ?_⟩
  · show (correct_presses kb (retrieve_keyboard_events kb livek) false
      rto).result ≠ .error .stateError
    unfold correct_presses
    split
    next hp => simp
    next hp =>
      dsimp only
      rcases check_force_quit_list_cases kb
          (((retrieve_keyboard_events kb livek).map
            (fun e => (e.1, e.2 + kb.time_correction))).map (fun e => e.1))
        with hc | hc <;> rw [hc] <;> simp
  · intro hq
    exact correct_presses_result_bare kb _ rto hq
  · show (correct_clicks kb m (retrieve_mouse_events m liveb) false
      rto).result ≠ .error .stateError
    unfold correct_clicks
    split
    next hp => simp
    next hp =>
      dsimp only
      rcases check_force_quit_noKeys_cases kb with hc | hc <;> rw [hc] <;> simp
  · intro hq
    exact correct_clicks_result_bare kb m _ rto hq

/-- Witness for C10: with no session ever started, an untimestamped
get_presses returns the bare buffered key. -/
theorem C10_no_timestamp_witness :
    ((get_presses ⟨["esc"], 2, none, [("a", 1)]⟩ none false none).result =
      .ok [.bare "a"]) ∧
    ((get_presses ⟨["esc"], 2, none, [("a", 1)]⟩ none false none).result ≠
      .error .stateError) := by
  have h := C10_no_timestamp ⟨["esc"], 2, none, [("a", 1)]⟩ ⟨0, none, []⟩
    none none none none none none
  exact ⟨by simpa using h.2.2.1 (by decide), h.1⟩

/-- C8: wait_one_press and wait_one_click poll until the first matching
event arrives or max_wait elapses since the wait started; the earliest
retrieved event is returned corrected — a (key, time) / (button, x, y,
time) tuple with a timestamp, a bare identifier / triple without — and on
timeout the result is the (None, None) pair with a timestamp and None
without. -/
theorem C8_wait_one (kb : Keyboard) (m : Mouse) (max_wait : Wait)
    (min_wait r : ℚ) (livek liveb : Option (List String)) (rto : Option ℚ)
    (st : ℚ) (sa : List KeyEvent) (sc : List MouseEvent)
    (clock_at : ℕ → ℚ) (bufk_at : ℕ → List KeyEvent)
    (bufm_at : ℕ → List MouseEvent) (kb_buf_end : List KeyEvent)
    (fuel j n : ℕ) (e : KeyEvent) (es : List KeyEvent) (c : MouseEvent)
    (cs : List MouseEvent)
    (hv1 : ¬(max_wait.isInf = true ∧ livek = some []))
    (hv2 : ¬(max_wait.isInf = true ∧ liveb = some []))
    (hle : waitLe min_wait max_wait = true)
    (hsq : ∀ x ∈ kb.keyboard_buffer ++ sa, x.1 ∉ kb.force_quit_keys) :
    ((∀ k, retrieve_keyboard_events
        { kb with keyboard_buffer := bufk_at k } livek = []) →
      waitLt (clock_at n - st) max_wait = false → n < fuel →
      ∀ ts, wait_one_press kb max_wait min_wait livek ts rto st sa clock_at
          bufk_at fuel =
        .ok (if ts then .timedNone else .bareNone)) ∧
    ((∀ k, k < j → retrieve_keyboard_events
        { kb with keyboard_buffer := bufk_at k } livek = []) →
      (∀ k, k ≤ j → waitLt (clock_at k - st) max_wait = true) →
      retrieve_keyboard_events { kb with keyboard_buffer := bufk_at j } livek
        = e :: es →
      (∀ x ∈ e :: es, x.1 ∉ kb.force_quit_keys) →
      j + 1 ≤ fuel →
      wait_one_press kb max_wait min_wait livek true (some r) st sa clock_at
          bufk_at fuel = .ok (.timed e.1 (e.2 + kb.time_correction - r)) ∧
      wait_one_press kb max_wait min_wait livek false rto st sa clock_at
          bufk_at fuel = .ok (.bare e.1)) ∧
    ((∀ k, retrieve_mouse_events
        { m with mouse_buffer := bufm_at k } liveb = []) →
      waitLt (clock_at n - st) max_wait = false → n < fuel →
      ∀ ts, wait_one_click kb m max_wait min_wait liveb ts rto st sa sc
          clock_at bufm_at kb_buf_end fuel =
        .ok (if ts then .timedNone else .bareNone)) ∧
    ((∀ k, k < j → retrieve_mouse_events
        { m with mouse_buffer := bufm_at k } liveb = []) →
      (∀ k, k ≤ j → waitLt (clock_at k - st) max_wait = true) →
      retrieve_mouse_events { m with mouse_buffer := bufm_at j } liveb
        = c :: cs →
      (∀ x ∈ kb_buf_end, x.1 ∉ kb.force_quit_keys) →
      j + 1 ≤ fuel →
      wait_one_click kb m max_wait min_wait liveb true (some r) st sa sc
          clock_at bufm_at kb_buf_end fuel =
        .ok (.timed c.button c.x c.y (c.t + m.time_correction - r)) ∧
      wait_one_click kb m max_wait min_wait liveb false rto st sa sc
          clock_at bufm_at kb_buf_end fuel = .ok (.bare c.button c.x c.y)) := by
  refine ⟨?_, ?_, ?_, ?_⟩
  · intro hempty hstop hfuel ts
    simp only [wait_one_press,
      init_wait_press_ok kb max_wait min_wait livek ts rto st sa hv1 hle hsq]
    rw [wait_press_loop_empty kb livek st max_wait clock_at bufk_at hempty
      fuel 0]
    cases ts <;> rfl
  · intro hemp hclk hj hqe hfuel
    have hne : retrieve_keyboard_events
        { kb with keyboard_buffer := bufk_at j } livek ≠ [] := by
      rw [hj]; simp
    constructor
    · simp only [wait_one_press,
        init_wait_press_ok kb max_wait min_wait livek true (some r) st sa
          hv1 hle hsq]
      rw [wait_press_loop_first kb livek st max_wait clock_at bufk_at j fuel 0
        (Nat.zero_le j) (by omega) (fun k _ h2 => hemp k h2)
        (fun k _ h2 => hclk k h2) hne, hj]
      simp [correct_presses_result_timed kb (e :: es) r hqe]
    · simp only [wait_one_press,
        init_wait_press_ok kb max_wait min_wait livek false rto st sa
          hv1 hle hsq]
      rw [wait_press_loop_first kb livek st max_wait clock_at bufk_at j fuel 0
        (Nat.zero_le j) (by omega) (fun k _ h2 => hemp k h2)
        (fun k _ h2 => hclk k h2) hne, hj]
      simp [correct_presses_result_bare kb (e :: es) rto hqe]
  · intro hempty hstop hfuel ts
    simp only [wait_one_click,
      init_wait_click_ok kb m max_wait min_wait liveb ts rto st sa sc
        hv2 hle hsq]
    rw [wait_click_loop_empty m liveb st max_wait clock_at bufm_at hempty
      fuel 0]
    cases ts <;> rfl
  · intro hemp hclk hj hqe hfuel
    have hne : retrieve_mouse_events
        { m with mouse_buffer := bufm_at j } liveb ≠ [] := by
      rw [hj]; simp
    constructor
    · simp only [wait_one_click,
        init_wait_click_ok kb m max_wait min_wait liveb true (some r) st sa sc
          hv2 hle hsq]
      rw [wait_click_loop_first m liveb st max_wait clock_at bufm_at j fuel 0
        (Nat.zero_le j) (by omega) (fun k _ h2 => hemp k h2)
        (fun k _ h2 => hclk k h2) hne, hj]
      simp [correct_clicks_result_timed
        { kb with keyboard_buffer := kb_buf_end } m (c :: cs) r hqe]
    · simp only [wait_one_click,
        init_wait_click_ok kb m max_wait min_wait liveb false rto st sa sc
          hv2 hle hsq]
      rw [wait_click_loop_first m liveb st max_wait clock_at bufm_at j fuel 0
        (Nat.zero_le j) (by omega) (fun k _ h2 => hemp k h2)
        (fun k _ h2 => hclk k h2) hne, hj]
      simp [correct_clicks_result_bare
        { kb with keyboard_buffer := kb_buf_end } m (c :: cs) rto hqe]

/-- Witness for C8: a press ("a", 1) retrieved at the first poll of a
wait_one_press with correction 2 and relative_to 3 yields the corrected
pair; with an always-empty buffer the wait times out to the None pair. -/
theorem C8_wait_one_witness :
    (wait_one_press ⟨["esc"], 2, none, []⟩ (some 10) 0 none true (some 3) 0 []
        (fun _ => 0) (fun _ => [("a", 1)]) 2 =
      .ok (.timed "a" (1 + 2 - 3))) ∧
    (wait_one_press ⟨["esc"], 2, none, []⟩ (some 10) 0 none true (some 3) 0 []
        (fun _ => 20) (fun _ => []) 2 = .ok .timedNone) := by
  constructor
  · have h := (C8_wait_one ⟨["esc"], 2, none, []⟩ ⟨0, none, []⟩ (some 10) 0 3
      none none none 0 [] [] (fun _ => 0) (fun _ => [("a", 1)]) (fun _ => [])
      [] 2 0 0 ("a", 1) [] ⟨"left", 0, 0, 0⟩ [] (by decide) (by decide)
      (by decide) (by decide)).2.1 (fun k hk => absurd hk (by omega))
      (fun k _ => by norm_num [waitLt]) rfl (by decide) (by omega)
    simpa using h.1
  · have h := (C8_wait_one ⟨["esc"], 2, none, []⟩ ⟨0, none, []⟩ (some 10) 0 3
      none none (some 3) 0 [] [] (fun _ => 20) (fun _ => []) (fun _ => [])
      [] 2 0 0 ("a", 1) [] ⟨"left", 0, 0, 0⟩ [] (by decide) (by decide)
      (by decide) (by decide)).1 (fun k => rfl) (by norm_num [waitLt])
      (by omega) true
    simpa using h

/-- C9: wait_for_presses and wait_for_clicks poll until max_wait elapses —
the stopping poll is fixed by the clock alone, never by an event — and
return the corrected filtered buffer of the last poll before the timeout
check, which (the buffer being append-only across polls) contains every
matching event of every earlier poll; with no input events the result is
the empty sequence, for any min_wait ≤ max_wait. -/
theorem C9_wait_many (kb : Keyboard) (m : Mouse) (max_wait : Wait)
    (min_wait r : ℚ) (livek liveb : Option (List String)) (rto : Option ℚ)
    (st : ℚ) (sa : List KeyEvent) (sc : List MouseEvent)
    (clock_at : ℕ → ℚ) (bufk_at : ℕ → List KeyEvent)
    (bufm_at : ℕ → List MouseEvent) (kb_buf_end : List KeyEvent)
    (fuel j : ℕ)
    (hv1 : ¬(max_wait.isInf = true ∧ livek = some []))
    (hv2 : ¬(max_wait.isInf = true ∧ liveb = some []))
    (hle : waitLe min_wait max_wait = true)
    (hsq : ∀ x ∈ kb.keyboard_buffer ++ sa, x.1 ∉ kb.force_quit_keys)
    (hj : waitLt (clock_at j - st) max_wait = false)
    (hcl : ∀ k < j, waitLt (clock_at k - st) max_wait = true)
    (hfuel : j + 1 ≤ fuel) :
    ((1 ≤ j) →
      (∀ x ∈ retrieve_keyboard_events
          { kb with keyboard_buffer := bufk_at (j - 1) } livek,
        x.1 ∉ kb.force_quit_keys) →
      (wait_for_presses kb max_wait min_wait livek true (some r) st sa
          clock_at bufk_at fuel).result =
        .ok ((retrieve_keyboard_events
            { kb with keyboard_buffer := bufk_at (j - 1) } livek).map
          (fun x => .timed x.1 (x.2 + kb.time_correction - r))) ∧
      (wait_for_presses kb max_wait min_wait livek false rto st sa
          clock_at bufk_at fuel).result =
        .ok ((retrieve_keyboard_events
            { kb with keyboard_buffer := bufk_at (j - 1) } livek).map
          (fun x => .bare x.1))) ∧
    ((∀ i k : ℕ, i ≤ k → ∀ x ∈ bufk_at i, x ∈ bufk_at k) →
      ∀ x k, k < j →
        x ∈ retrieve_keyboard_events
          { kb with keyboard_buffer := bufk_at k } livek →
        x ∈ retrieve_keyboard_events
          { kb with keyboard_buffer := bufk_at (j - 1) } livek) ∧
    (j = 0 → ∀ ts,
      (wait_for_presses kb max_wait min_wait livek ts rto st sa clock_at
        bufk_at fuel).result = .ok []) ∧
    ((∀ k, retrieve_keyboard_events
        { kb with keyboard_buffer := bufk_at k } livek = []) →
      ∀ ts, (wait_for_presses kb max_wait min_wait livek ts rto st sa
        clock_at bufk_at fuel).result = .ok []) ∧
    ((1 ≤ j) →
      (∀ x ∈ kb_buf_end, x.1 ∉ kb.force_quit_keys) →
      (wait_for_clicks kb m max_wait min_wait liveb true (some r) st sa sc
          clock_at bufm_at kb_buf_end fuel).result =
        .ok ((retrieve_mouse_events
            { m with mouse_buffer := bufm_at (j - 1) } liveb).map
          (fun x => .timed x.button x.x x.y (x.t + m.time_correction - r))) ∧
      (wait_for_clicks kb m max_wait min_wait liveb false rto st sa sc
          clock_at bufm_at kb_buf_end fuel).result =
        .ok ((retrieve_mouse_events
            { m with mouse_buffer := bufm_at (j - 1) } liveb).map
          (fun x => .bare x.button x.x x.y))) ∧
    ((∀ i k : ℕ, i ≤ k → ∀ x ∈ bufm_at i, x ∈ bufm_at k) →
      ∀ x k, k < j →
        x ∈ retrieve_mouse_events
          { m with mouse_buffer := bufm_at k } liveb →
        x ∈ retrieve_mouse_events
          { m with mouse_buffer := bufm_at (j - 1) } liveb) ∧
    (j = 0 → ∀ ts,
      (wait_for_clicks kb m max_wait min_wait liveb ts rto st sa sc clock_at
        bufm_at kb_buf_end fuel).result = .ok []) ∧
    ((∀ k, retrieve_mouse_events
        { m with mouse_buffer := bufm_at k } liveb = []) →
      ∀ ts, (wait_for_clicks kb m max_wait min_wait liveb ts rto st sa sc
        clock_at bufm_at kb_buf_end fuel).result = .ok []) := by
  refine ⟨?_, ?_, ?_, ?_, ?_, ?_, ?_, ?_⟩
  · intro hj1 hq
    constructor
    · simp only [wait_for_presses,
        init_wait_press_ok kb max_wait min_wait livek true (some r) st sa
          hv1 hle hsq]
      rw [wait_many_press_loop_char kb livek st max_wait clock_at bufk_at j
        hj hcl fuel 0 [] (Nat.zero_le j) (by omega),
        if_neg (by omega : ¬ (0 : ℕ) = j)]
      exact correct_presses_result_timed kb _ r hq
    · simp only [wait_for_presses,
        init_wait_press_ok kb max_wait min_wait livek false rto st sa
          hv1 hle hsq]
      rw [wait_many_press_loop_char kb livek st max_wait clock_at bufk_at j
        hj hcl fuel 0 [] (Nat.zero_le j) (by omega),
        if_neg (by omega : ¬ (0 : ℕ) = j)]
      exact correct_presses_result_bare kb _ rto hq
  · intro hmono x k hk hx
    exact retrieve_keyboard_mono kb livek (bufk_at k) (bufk_at (j - 1))
      (hmono k (j - 1) (by omega)) x hx
  · intro hj0 ts
    subst hj0
    simp only [wait_for_presses,
      init_wait_press_ok kb max_wait min_wait livek ts rto st sa hv1 hle hsq]
    rw [wait_many_press_loop_char kb livek st max_wait clock_at bufk_at 0
      hj hcl fuel 0 [] le_rfl (by omega), if_pos rfl]
    rfl
  · intro hempty ts
    simp only [wait_for_presses,
      init_wait_press_ok kb max_wait min_wait livek ts rto st sa hv1 hle hsq]
    rw [wait_many_press_loop_char kb livek st max_wait clock_at bufk_at j
      hj hcl fuel 0 [] (Nat.zero_le j) (by omega)]
    rcases Nat.eq_zero_or_pos j with h0 | h1
    · subst h0
      rw [if_pos rfl]
      rfl
    · rw [if_neg (by omega : ¬ (0 : ℕ) = j), hempty (j - 1)]
      rfl
  · intro hj1 hq
    constructor
    · simp only [wait_for_clicks,
        init_wait_click_ok kb m max_wait min_wait liveb true (some r) st sa sc
          hv2 hle hsq]
      rw [wait_many_click_loop_char m liveb st max_wait clock_at bufm_at j
        hj hcl fuel 0 [] (Nat.zero_le j) (by omega),
        if_neg (by omega : ¬ (0 : ℕ) = j)]
      exact correct_clicks_result_timed
        { kb with keyboard_buffer := kb_buf_end } m _ r hq
    · simp only [wait_for_clicks,
        init_wait_click_ok kb m max_wait min_wait liveb false rto st sa sc
          hv2 hle hsq]
      rw [wait_many_click_loop_char m liveb st max_wait clock_at bufm_at j
        hj hcl fuel 0 [] (Nat.zero_le j) (by omega),
        if_neg (by omega : ¬ (0 : ℕ) = j)]
      exact correct_clicks_result_bare
        { kb with keyboard_buffer := kb_buf_end } m _ rto hq
  · intro hmono x k hk hx
    exact retrieve_mouse_mono m liveb (bufm_at k) (bufm_at (j - 1))
      (hmono k (j - 1) (by omega)) x hx
  · intro hj0 ts
    subst hj0
    simp only [wait_for_clicks,
      init_wait_click_ok kb m max_wait min_wait liveb ts rto st sa sc
        hv2 hle hsq]
    rw [wait_many_click_loop_char m liveb st max_wait clock_at bufm_at 0
      hj hcl fuel 0 [] le_rfl (by omega), if_pos rfl]
    rfl
  · intro hempty ts
    simp only [wait_for_clicks,
      init_wait_click_ok kb m max_wait min_wait liveb ts rto st sa sc
        hv2 hle hsq]
    rw [wait_many_click_loop_char m liveb st max_wait clock_at bufm_at j
      hj hcl fuel 0 [] (Nat.zero_le j) (by omega)]
    rcases Nat.eq_zero_or_pos j with h0 | h1
    · subst h0
      rw [if_pos rfl]
      rfl
    · rw [if_neg (by omega : ¬ (0 : ℕ) = j), hempty (j - 1)]
      rfl

/-- Witness for C9: the clock crosses max_wait 1 at the second poll, so the
press buffered at the first poll is returned in the corrected set, and with
an always-empty buffer the result is the empty sequence. -/
theorem C9_wait_many_witness :
    ((wait_for_presses ⟨["esc"], 2, none, []⟩ (some 1) 1 none true (some 3) 0
        [] (fun k => if k = 0 then 0 else 5) (fun _ => [("a", 1)])
        2).result = .ok [.timed "a" (1 + 2 - 3)]) ∧
    ((wait_for_presses ⟨["esc"], 2, none, []⟩ (some 1) 1 none true (some 3) 0
        [] (fun k => if k = 0 then 0 else 5) (fun _ => [])
        2).result = .ok []) := by
  have h := C9_wait_many ⟨["esc"], 2, none, []⟩ ⟨0, none, []⟩ (some 1) 1 3
    none none none 0 [] [] (fun k => if k = 0 then 0 else 5)
    (fun _ => [("a", 1)]) (fun _ => []) [] 2 1 (by decide) (by decide)
    (by decide) (by decide) (by norm_num [waitLt])
    (by
      intro k hk
      interval_cases k
      norm_num [waitLt]) (by omega)
  have h' := C9_wait_many ⟨["esc"], 2, none, []⟩ ⟨0, none, []⟩ (some 1) 1 3
    none none (some 3) 0 [] [] (fun k => if k = 0 then 0 else 5)
    (fun _ => []) (fun _ => []) [] 2 1 (by decide) (by decide)
    (by decide) (by decide) (by norm_num [waitLt])
    (by
      intro k hk
      interval_cases k
      norm_num [waitLt]) (by omega)
  constructor
  · have := (h.1 le_rfl (by decide)).1
    simpa using this
  · have := h'.2.2.2.1 (fun k => rfl) true
    simpa using this

/-- C3 counterexample: "esc" is in the force-quit set and has been pressed
(it sits in the keyboard buffer), yet the retrieval operation get_clicks —
whose mouse buffer holds no matching click — returns normally instead of
raising the ForceQuit error: force-quit membership is not checked on every
retrieval of either monitor. -/
theorem C3_counterexample :
    ("esc", (0 : ℚ)) ∈
      (⟨["esc"], 0, some 0, [("esc", 0)]⟩ : Keyboard).keyboard_buffer ∧
    "esc" ∈ (⟨["esc"], 0, some 0, [("esc", 0)]⟩ : Keyboard).force_quit_keys ∧
    (get_clicks ⟨["esc"], 0, some 0, [("esc", 0)]⟩ ⟨0, some 0, []⟩ none false
        none).result = .ok [] ∧
    (get_clicks ⟨["esc"], 0, some 0, [("esc", 0)]⟩ ⟨0, some 0, []⟩ none false
        none).result ≠ .error .forceQuit := by
  refine ⟨by decide, by decide, rfl, ?_⟩
  intro h
  simp [get_clicks, correct_clicks, retrieve_mouse_events] at h

/-- C3 amended: every keyboard retrieval (get_presses and the correction
step of the keyboard waits) raises ForceQuit whenever a buffered key is in
the force-quit set, under any filter, because the filter is augmented with
that set; the mouse retrievals run the delegated keyboard check only when
at least one matching click was retrieved; a force-quit press present when
the settle window ends aborts every wait variant, and one retrieved during
wait_one_press's polling raises ForceQuit before the wait would time
out. -/
theorem C3_force_quit_checks (kb : Keyboard) (m : Mouse) (max_wait : Wait)
    (min_wait : ℚ) (livek liveb : Option (List String))
    (st : ℚ) (sa : List KeyEvent) (sc : List MouseEvent)
    (clock_at : ℕ → ℚ) (bufk_at : ℕ → List KeyEvent)
    (bufm_at : ℕ → List MouseEvent) (kb_buf_end : List KeyEvent)
    (fuel j : ℕ) (e : KeyEvent) (es : List KeyEvent) :
    ((∃ x ∈ kb.keyboard_buffer, x.1 ∈ kb.force_quit_keys) →
      ∀ ts rto, ¬(ts = true ∧ rto = none ∧ kb.listen_start = none) →
      (get_presses kb livek ts rto).result = .error .forceQuit) ∧
    ((∃ x ∈ kb.keyboard_buffer, x.1 ∈ kb.force_quit_keys) →
      retrieve_mouse_events m liveb ≠ [] →
      ∀ ts rto, ¬(ts = true ∧ rto = none ∧ m.listen_start = none) →
      (get_clicks kb m liveb ts rto).result = .error .forceQuit) ∧
    (¬(max_wait.isInf = true ∧ livek = some []) →
      ¬(max_wait.isInf = true ∧ liveb = some []) →
      waitLe min_wait max_wait = true →
      (∃ x ∈ kb.keyboard_buffer ++ sa, x.1 ∈ kb.force_quit_keys) →
      ∀ ts rto,
      wait_one_press kb max_wait min_wait livek ts rto st sa clock_at
          bufk_at fuel = .error .forceQuit ∧
      (wait_for_presses kb max_wait min_wait livek ts rto st sa clock_at
          bufk_at fuel).result = .error .forceQuit ∧
      wait_one_click kb m max_wait min_wait liveb ts rto st sa sc clock_at
          bufm_at kb_buf_end fuel = .error .forceQuit ∧
      (wait_for_clicks kb m max_wait min_wait liveb ts rto st sa sc clock_at
          bufm_at kb_buf_end fuel).result = .error .forceQuit) ∧
    (¬(max_wait.isInf = true ∧ livek = some []) →
      waitLe min_wait max_wait = true →
      (∀ x ∈ kb.keyboard_buffer ++ sa, x.1 ∉ kb.force_quit_keys) →
      (∀ k, k < j → retrieve_keyboard_events
        { kb with keyboard_buffer := bufk_at k } livek = []) →
      (∀ k, k ≤ j → waitLt (clock_at k - st) max_wait = true) →
      retrieve_keyboard_events { kb with keyboard_buffer := bufk_at j } livek
        = e :: es →
      (∃ x ∈ e :: es, x.1 ∈ kb.force_quit_keys) →
      j + 1 ≤ fuel →
      ∀ ts rto,
      wait_one_press kb max_wait min_wait livek ts rto st sa clock_at
        bufk_at fuel = .error .forceQuit) := by
  refine ⟨?_, ?_, ?_, ?_⟩
  · intro hfq ts rto hst
    have hquit : ∃ x ∈ retrieve_keyboard_events kb livek,
        x.1 ∈ kb.force_quit_keys := by
      obtain ⟨x, hx, hf⟩ := hfq
      exact ⟨x, retrieve_keyboard_mem_fq kb livek x hx hf, hf⟩
    unfold get_presses
    split
    next hc =>
      rw [Bool.and_eq_true, Option.isNone_iff_eq_none] at hc
      cases hls : kb.listen_start with
      | none => exact absurd ⟨hc.1, hc.2, hls⟩ hst
      | some ls => exact correct_presses_result_quit kb _ ts (some ls) hquit
    next hc => exact correct_presses_result_quit kb _ ts rto hquit
  · intro hfq hne ts rto hst
    unfold get_clicks
    split
    next hc =>
      rw [Bool.and_eq_true, Option.isNone_iff_eq_none] at hc
      cases hls : m.listen_start with
      | none => exact absurd ⟨hc.1, hc.2, hls⟩ hst
      | some ls => exact correct_clicks_result_quit kb m _ ts (some ls) hne hfq
    next hc => exact correct_clicks_result_quit kb m _ ts rto hne hfq
  · intro hv1 hv2 hle hfq ts rto
    refine ⟨?_, ?_, ?_, ?_⟩
    · simp only [wait_one_press,
        init_wait_press_quit kb max_wait min_wait livek ts rto st sa
          hv1 hle hfq]
    · simp only [wait_for_presses,
        init_wait_press_quit kb max_wait min_wait livek ts rto st sa
          hv1 hle hfq]
    · simp only [wait_one_click,
        init_wait_click_quit kb m max_wait min_wait liveb ts rto st sa sc
          hv2 hle hfq]
    · simp only [wait_for_clicks,
        init_wait_click_quit kb m max_wait min_wait liveb ts rto st sa sc
          hv2 hle hfq]
  · intro hv1 hle hsq hemp hclk hj hfqe hfuel ts rto
    have hne : retrieve_keyboard_events
        { kb with keyboard_buffer := bufk_at j } livek ≠ [] := by
      rw [hj]; simp
    simp only [wait_one_press,
      init_wait_press_ok kb max_wait min_wait livek ts rto st sa hv1 hle hsq]
    rw [wait_press_loop_first kb livek st max_wait clock_at bufk_at j fuel 0
      (Nat.zero_le j) (by omega) (fun k _ h2 => hemp k h2)
      (fun k _ h2 => hclk k h2) hne, hj]
    rw [correct_presses_result_quit kb (e :: es) ts _ hfqe]
    rfl

/-- Witness for the amended C3: a buffered "esc" press makes get_presses
raise the quit error, makes get_clicks with one matching click raise it,
and aborts a wait_one_press at its settle check. -/
theorem C3_force_quit_checks_witness :
    ((get_presses ⟨["esc"], 0, some 0, [("esc", 0)]⟩ none false none).result
      = .error .forceQuit) ∧
    ((get_clicks ⟨["esc"], 0, some 0, [("esc", 0)]⟩
        ⟨0, some 0, [⟨"left", 1, 2, 3⟩]⟩ none false none).result =
      .error .forceQuit) ∧
    (wait_one_press ⟨["esc"], 0, some 0, [("esc", 0)]⟩ (some 10) 0 none false
        none 0 [] (fun _ => 0) (fun _ => []) 2 = .error .forceQuit) := by
  have h := C3_force_quit_checks ⟨["esc"], 0, some 0, [("esc", 0)]⟩
    ⟨0, some 0, [⟨"left", 1, 2, 3⟩]⟩ (some 10) 0 none none 0 [] []
    (fun _ => 0) (fun _ => []) (fun _ => []) [] 2 0 ("a", 1) []
  refine ⟨h.1 (by decide) false none (by decide), ?_, ?_⟩
  · exact h.2.1 (by decide) (by decide) false none (by decide)
  · exact (h.2.2.1 (by decide) (by decide) (by decide) (by decide) false
      none).1

end Expyfun
